import Mathlib

/-!
Verification development for the market-scanner signal-scoring and ranking
pipeline.  The Python sources (`config.py`, `signals/ignition.py`,
`signals/pressure.py`, `signals/fuel.py`, `scoring/composite.py`,
`scoring/benchmark.py`) are shallowly embedded below.  Float arithmetic is
modelled over `ℚ` (and over `ℝ` where the source takes a square root);
fallible computations are modelled with `Except`/`Option`; the benchmark
cache is modelled as explicit association-list state.
-/

namespace MarketScanner

/-! ## Configuration constants (`config.py`, class `ScannerConfig`) -/

/-- `config.MAX_SYMBOLS_PER_SCAN = 3` -/
def MAX_SYMBOLS_PER_SCAN : ℕ := 3

/-- `config.MIN_SCORE_THRESHOLD = 70` -/
def MIN_SCORE_THRESHOLD : ℚ := 70

/-- `config.MIN_PROBABILITY_THRESHOLD = 0.65` -/
def MIN_PROBABILITY_THRESHOLD : ℚ := 65/100

/-- `config.VWAP_MOMENTUM_WEIGHT = 25.0` -/
def VWAP_MOMENTUM_WEIGHT : ℚ := 25

/-- `config.OPTIONS_PRESSURE_WEIGHT = 30.0` -/
def OPTIONS_PRESSURE_WEIGHT : ℚ := 30

/-- `config.VOLUME_WEIGHT = 20.0` -/
def VOLUME_WEIGHT : ℚ := 20

/-- `config.MAX_DISTANCE_FROM_HOD_LOD = 0.20` -/
def MAX_DISTANCE_FROM_HOD_LOD : ℚ := 1/5

/-- `config.MIN_VOLUME_MULTIPLE = 2.0` -/
def MIN_VOLUME_MULTIPLE : ℚ := 2

/-- `config.MAX_FLOAT_SIZE = 20_000_000` -/
def MAX_FLOAT_SIZE : ℚ := 20000000

/-! ## Pressure engine (`signals/pressure.py`) -/

/-- `PressureEngine._calculate_probability_reach(current_price, target_strike,
options_data)`.  The Black-Scholes style raw probability (computed in the
source from the mean implied volatility via `norm.cdf`) is abstracted as the
parameter `rawProbability`; the source's control flow around it is kept
exactly: an early `return 1.0` when the strike equals the current price, and
otherwise the final clamp `max(0.01, min(0.99, probability))`. -/
def calculateProbabilityReach (currentPrice targetStrike rawProbability : ℚ) : ℚ :=
  if targetStrike = currentPrice then 1
  else max (1/100) (min (99/100) rawProbability)

/-- The `probability_reach` field produced by `PressureEngine.analyze`:
`probability = 0.0` when `_find_target_wall` returned no wall, and
`_calculate_probability_reach(price, wall.strike, options_data)` otherwise.
`targetWall` is the strike of the selected wall, if any. -/
def analyzeProbabilityReach (price : ℚ) (targetWall : Option ℚ)
    (rawProbability : ℚ) : ℚ :=
  match targetWall with
  | none => 0
  | some strike => calculateProbabilityReach price strike rawProbability

/-- `PressureEngine._calculate_pressure_score(probability, dealer_flow, pcr,
walls)`.  `wallGammas` is the list of `gamma_value` fields of the walls (the
source reads only `walls[0].gamma_value`, guarded by `if walls:`). -/
def calculatePressureScore (probability : ℚ) (dealerFlow : String) (pcr : ℚ)
    (wallGammas : List ℚ) : ℚ :=
  let s1 := probability * 40
  let s2 := if dealerFlow = "bullish" then (30:ℚ)
            else if dealerFlow = "bearish" then 20 else 0
  let s3 := if pcr < 7/10 then (20:ℚ)
            else if pcr < 1 then 15
            else if pcr > 3/2 then 10 else 0
  let s4 := match wallGammas with
            | [] => (0:ℚ)
            | g :: _ => min 10 (g / 5000)
  min 100 (s1 + s2 + s3 + s4)

/-! ## Ignition engine (`signals/ignition.py`) -/

/-- `IgnitionEngine.analyze` composed with
`IgnitionEngine._calculate_ignition_score`: the three boolean triggers are
derived from the numeric inputs exactly as in `analyze`
(`vwap_momentum = vwap_slope > 0.001`, `expansion_energy = expansion_ratio >
1.5`, `entry_timing = distance < config.MAX_DISTANCE_FROM_HOD_LOD`) and fed
into the score computation. -/
def ignitionAnalyzeScore (vwapSlope bandExpansion distanceFromExtremes : ℚ) : ℚ :=
  let s1 := if vwapSlope > 1/1000 then min 40 (|vwapSlope| * 10000) else 0
  let s2 := if bandExpansion > 3/2 then min 35 ((bandExpansion - 1) * 35) else 0
  let s3 := if distanceFromExtremes < MAX_DISTANCE_FROM_HOD_LOD then
      ((MAX_DISTANCE_FROM_HOD_LOD - distanceFromExtremes) / MAX_DISTANCE_FROM_HOD_LOD) * 25
    else 0
  min 100 (s1 + s2 + s3)

/-! ## Fuel engine (`signals/fuel.py`) -/

/-- `FuelEngine._calculate_squeeze_score(fundamental_data, relative_volume)`. -/
def calculateSqueezeScore (floatShares shortPercent borrowFee insiderOwnership
    relativeVolume : ℚ) : ℚ :=
  let s1 := if floatShares < 5000000 then (30:ℚ)
            else if floatShares < 10000000 then 25
            else if floatShares < 20000000 then 15 else 0
  let s2 := if shortPercent > 30 then (25:ℚ)
            else if shortPercent > 20 then 20
            else if shortPercent > 15 then 10 else 0
  let s3 := if borrowFee > 100 then (20:ℚ)
            else if borrowFee > 50 then 15
            else if borrowFee > 25 then 5 else 0
  let s4 := if relativeVolume > 5 then (15:ℚ)
            else if relativeVolume > 3 then 10
            else if relativeVolume > 2 then 5 else 0
  let s5 := if insiderOwnership > 40 then (10:ℚ)
            else if insiderOwnership > 30 then 5 else 0
  min 100 (s1 + s2 + s3 + s4 + s5)

/-- `FuelEngine._calculate_fuel_score(low_float, high_short_interest,
high_borrow_cost, volume_surge, relative_volume, squeeze_score)`. -/
def calculateFuelScore (lowFloat highShortInterest highBorrowCost volumeSurge : Bool)
    (relativeVolume squeezeScore : ℚ) : ℚ :=
  let s1 := if lowFloat then (25:ℚ) else 0
  let s2 := if highShortInterest then (25:ℚ) else 0
  let s3 := if highBorrowCost then (20:ℚ) else 0
  let s4 := if volumeSurge then min 20 ((relativeVolume - 2) * 5) else 0
  let s5 := min 10 (squeezeScore / 10)
  min 100 (s1 + s2 + s3 + s4 + s5)

/-- `FuelEngine.analyze` composed with the fuel score computation: the flags
and `relative_volume` are derived from the snapshot and fundamentals exactly
as in `analyze` (`low_float = float_shares < config.MAX_FLOAT_SIZE`,
`high_short_interest = short_percent > 15.0`,
`high_borrow_cost = borrow_fee > 50.0`,
`relative_volume = volume / avg_volume if avg_volume > 0 else 1.0`,
`volume_surge = relative_volume > config.MIN_VOLUME_MULTIPLE`). -/
def fuelAnalyzeScore (volume avgVolume floatShares shortPercent borrowFee
    insiderOwnership : ℚ) : ℚ :=
  let relativeVolume := if avgVolume > 0 then volume / avgVolume else 1
  let squeezeScore := calculateSqueezeScore floatShares shortPercent borrowFee
    insiderOwnership relativeVolume
  calculateFuelScore (decide (floatShares < MAX_FLOAT_SIZE))
    (decide (shortPercent > 15)) (decide (borrowFee > 50))
    (decide (relativeVolume > MIN_VOLUME_MULTIPLE)) relativeVolume squeezeScore

/-! ## Composite scorer (`scoring/composite.py`) -/

/-- `CompositeScorer._calculate_combination_bonus(ignition, pressure, fuel)`.
The signal fields the source reads are passed explicitly. -/
def calculateCombinationBonus (ignitionScore pressureScore fuelScore : ℚ)
    (vwapMomentum : Bool) (probabilityReach : ℚ)
    (lowFloat highShortInterest : Bool) (dealerFlow : String)
    (expansionEnergy volumeSurge : Bool) : ℚ :=
  let strongSignals : ℕ :=
    (if ignitionScore > 70 then 1 else 0) +
    (if pressureScore > 70 then 1 else 0) +
    (if fuelScore > 70 then 1 else 0)
  let b1 := if strongSignals ≥ 3 then (15:ℚ)
            else if strongSignals ≥ 2 then 8 else 0
  let b2 := if vwapMomentum = true ∧ probabilityReach > 7/10 then (5:ℚ) else 0
  let b3 := if lowFloat = true ∧ highShortInterest = true ∧ dealerFlow = "bullish"
            then (8:ℚ) else 0
  let b4 := if expansionEnergy = true ∧ volumeSurge = true then (5:ℚ) else 0
  b1 + b2 + b3 + b4

/-- `CompositeScorer._calculate_weighted_score` after the bonus has been
computed: the configured weights divided by 100 are applied to the three
sub-scores, the bonus is added, and the sum is capped at 100. -/
def calculateWeightedScore (ignitionScore pressureScore fuelScore bonus : ℚ) : ℚ :=
  min 100 (ignitionScore * (VWAP_MOMENTUM_WEIGHT / 100) +
           pressureScore * (OPTIONS_PRESSURE_WEIGHT / 100) +
           fuelScore * (VOLUME_WEIGHT / 100) + 0 + bonus)

/-- `CompositeScorer._estimate_price_move(market_data, fuel)`. -/
def estimatePriceMove (price high low relativeVolume shortSqueezeScore : ℚ) : ℚ :=
  let m1 := (5:ℚ)/100
  let m2 := if relativeVolume > 3 then m1 * (3/2)
            else if relativeVolume > 2 then m1 * (6/5) else m1
  let m3 := if high > 0 ∧ low > 0 ∧ (high - low) / price > 15/100
            then m2 * (13/10) else m2
  let m4 := if shortSqueezeScore > 80 then m3 * 2
            else if shortSqueezeScore > 60 then m3 * (3/2) else m3
  min (1/2) m4

/-- `CompositeScorer._calculate_expected_return(market_data, pressure, fuel)`.
Returns the pair (probability-adjusted expected return, target price).
Python's truthiness test `if pressure.target_strike and ...` is modelled
exactly: the options target is used only when the strike is present (not
`None`), non-zero, and `probability_reach > 0.5`. -/
def calculateExpectedReturn (price high low : ℚ) (targetStrike : Option ℚ)
    (probabilityReach relativeVolume shortSqueezeScore : ℚ) : ℚ × Option ℚ :=
  let useTarget := match targetStrike with
    | some ts => if ts ≠ 0 ∧ probabilityReach > 1/2 then some ts else none
    | none => none
  let pair : ℚ × Option ℚ := match useTarget with
    | some ts => ((ts - price) / price, some ts)
    | none =>
      let estimatedMove := estimatePriceMove price high low relativeVolume shortSqueezeScore
      (estimatedMove, some (price * (1 + estimatedMove)))
  let probabilityAdjusted := pair.1 * probabilityReach
  let final := if shortSqueezeScore > 70
    then probabilityAdjusted * (1 + shortSqueezeScore / 200)
    else probabilityAdjusted
  (final, pair.2)

/-- `CompositeScorer._calculate_risk_reward(current_price, target_price,
expected_return)`.  Python's `if not target_price or target_price <=
current_price` is truthiness on an `Optional[float]`: it fires when the
target is `None`, equal to `0.0`, or at most the current price. -/
def calculateRiskReward (currentPrice : ℚ) (targetPrice : Option ℚ)
    (expectedReturn : ℚ) : ℚ :=
  match targetPrice with
  | none => 1
  | some t =>
    if t = 0 ∨ t ≤ currentPrice then 1
    else
      let stopLoss := currentPrice * (95/100)
      let potentialLoss := (currentPrice - stopLoss) / currentPrice
      if potentialLoss ≤ 0 then 10
      else expectedReturn / potentialLoss

/-- The `CompositeScore` dataclass (`scoring/composite.py`).  `risk_reward_ratio`
is named `riskReward` here. -/
structure CompositeScore where
  symbol : String
  total_score : ℚ
  ignition_score : ℚ
  pressure_score : ℚ
  fuel_score : ℚ
  btc_benchmark_passed : Bool
  expected_return : ℚ
  btc_expected_return : ℚ
  probability_reach : ℚ
  target_price : Option ℚ
  riskReward : ℚ
deriving DecidableEq

/-- The filter step of `CompositeScorer.filter_and_rank`: a score is kept
when none of the three `continue` branches fires. -/
def passesFilters (minScore minProb : ℚ) (s : CompositeScore) : Bool :=
  s.btc_benchmark_passed && !decide (s.total_score < minScore) &&
    !decide (s.probability_reach < minProb)

/-- The local `ranking_key` function of `CompositeScorer.filter_and_rank`. -/
def rankingKey (s : CompositeScore) : ℚ :=
  s.total_score * (7/10) + s.probability_reach * 30 + s.riskReward * 5

/-- One insertion step of a stable descending sort by `rankingKey`: `x` is
placed before the first element whose key is at most `rankingKey x`, so on a
tie the earlier input element stays first. -/
def insertDesc (x : CompositeScore) : List CompositeScore → List CompositeScore
  | [] => [x]
  | y :: ys => if rankingKey y ≤ rankingKey x then x :: y :: ys
               else y :: insertDesc x ys

/-- Stable descending sort by `rankingKey`, modelling Python's stable
`sorted(filtered, key=ranking_key, reverse=True)`. -/
def sortDesc : List CompositeScore → List CompositeScore
  | [] => []
  | x :: xs => insertDesc x (sortDesc xs)

/-- `CompositeScorer.filter_and_rank` with the three configuration values it
reads (`config.MIN_SCORE_THRESHOLD`, `config.MIN_PROBABILITY_THRESHOLD`,
`config.MAX_SYMBOLS_PER_SCAN`) passed explicitly. -/
def filterAndRankWith (minScore minProb : ℚ) (maxN : ℕ)
    (scores : List CompositeScore) : List CompositeScore :=
  (sortDesc (scores.filter (passesFilters minScore minProb))).take maxN

/-- `CompositeScorer.filter_and_rank` at the configured thresholds. -/
def filter_and_rank (scores : List CompositeScore) : List CompositeScore :=
  filterAndRankWith MIN_SCORE_THRESHOLD MIN_PROBABILITY_THRESHOLD
    MAX_SYMBOLS_PER_SCAN scores

/-! ## Benchmark cache (`scoring/benchmark.py`, `BTCBenchmark`) -/

/-- The cache key `f"btc_return_{timeframe}"`. -/
def cacheKey (timeframe : String) : String := "btc_return_" ++ timeframe

/-- Dictionary lookup `self.cache[cache_key]`.  The cache is a list of
entries `(key, stored-at time in seconds, value)`, modelling the Python dict
`self.cache` mapping key to `(datetime, float)`. -/
def cacheLookup : List (String × ℕ × ℚ) → String → Option (ℕ × ℚ)
  | [], _ => none
  | (k, t, v) :: rest, key => if k = key then some (t, v) else cacheLookup rest key

/-- Python's `(datetime.now() - cached_time).seconds`: the seconds component
of the timedelta, i.e. the elapsed whole seconds reduced modulo one day
(86400); the days component is discarded. -/
def timedeltaSeconds (now storedAt : ℕ) : ℕ := (now - storedAt) % 86400

/-- The cache-hit test at the top of `BTCBenchmark.get_expected_return`:
the stored value is returned when the key is present and
`(datetime.now() - cached_time).seconds < self.cache_duration` (300). -/
def cacheHit (cache : List (String × ℕ × ℚ)) (now : ℕ) (timeframe : String) :
    Option ℚ :=
  match cacheLookup cache (cacheKey timeframe) with
  | some (t, v) => if timedeltaSeconds now t < 300 then some v else none
  | none => none

/-- Dictionary update `self.cache[cache_key] = (datetime.now(), value)`. -/
def cacheStore : List (String × ℕ × ℚ) → String → ℕ → ℚ → List (String × ℕ × ℚ)
  | [], key, t, v => [(key, t, v)]
  | (k, t0, v0) :: rest, key, t, v =>
    if k = key then (key, t, v) :: rest
    else (k, t0, v0) :: cacheStore rest key t v

/-- `BTCBenchmark.get_expected_return(timeframe)` as a state-passing function
returning (result, new cache).  The fetch-and-compute part is abstracted as
`outcome`: `none` models `_fetch_btc_data` returning `None` (fetch failure or
empty history — `_fetch_btc_data` catches its own exceptions and returns
`None`), `some (.error ())` models an exception raised after the fetch
(caught by the surrounding `try`), and `some (.ok v)` models
`_calculate_expected_return` returning `v`.  On the two failure paths the
source returns the default `0.02` before any cache write. -/
def getExpectedReturn (cache : List (String × ℕ × ℚ)) (now : ℕ)
    (timeframe : String) (outcome : Option (Except Unit ℚ)) :
    ℚ × List (String × ℕ × ℚ) :=
  match cacheHit cache now timeframe with
  | some v => (v, cache)
  | none =>
    match outcome with
    | none => (1/50, cache)
    | some (.error _) => (1/50, cache)
    | some (.ok v) => (v, cacheStore cache (cacheKey timeframe) now v)

/-- `BTCBenchmark._get_max_expectation_for_timeframe`, reduced to its
`periods` tiers (the dictionary at the top of the source function is dead:
only the tier chain on `periods` is returned). -/
noncomputable def maxExpectationForPeriods (periods : ℕ) : ℝ :=
  if periods ≤ 1 then 5/100
  else if periods ≤ 2 then 8/100
  else if periods ≤ 4 then 12/100
  else 1/5

/-- `BTCBenchmark._calculate_expected_return(btc_data, timeframe)` in terms of
the aggregates the source derives from the frame: `momentum` (mean of the
last `periods` returns), `recentVol` (standard deviation of the last
`periods*4` returns), `periods` (`_get_periods_for_timeframe(timeframe)`) and
`dataLen` (`len(btc_data)`). -/
noncomputable def benchCalculateExpectedReturn (momentum recentVol : ℝ)
    (periods dataLen : ℕ) : ℝ :=
  if dataLen < periods * 2 then 1/50
  else
    let baseExpectation := momentum * periods
    let volatilityExpectation := recentVol * Real.sqrt periods
    let e1 := min |baseExpectation| volatilityExpectation
    let e2 := if |momentum| > recentVol * (1/2) then |baseExpectation| else e1
    let e3 := max e2 (1/100)
    min e3 (maxExpectationForPeriods periods)

/-! ## Signal records and the engine error boundaries -/

/-- The `IgnitionSignal` dataclass (`signals/ignition.py`). -/
structure IgnitionSignal where
  vwap_momentum : Bool
  expansion_energy : Bool
  entry_timing : Bool
  vwap_spread_slope : ℚ
  band_expansion : ℚ
  distance_from_extremes : ℚ
  score : ℚ
deriving DecidableEq

/-- The neutral `IgnitionSignal` built in the `except` branch of
`IgnitionEngine.analyze`. -/
def neutralIgnitionSignal : IgnitionSignal :=
  ⟨false, false, false, 0, 1, 1, 0⟩

/-- The `PressureSignal` dataclass (`signals/pressure.py`); `nearest_walls`
is modelled by the walls' strikes and `put_call_ratio` is named `pcr`. -/
structure PressureSignal where
  target_strike : Option ℚ
  probability_reach : ℚ
  dealer_flow : String
  nearest_wall_strikes : List ℚ
  max_pain : ℚ
  pcr : ℚ
  score : ℚ
deriving DecidableEq

/-- The neutral `PressureSignal` built in the `except` branch of
`PressureEngine.analyze` (its `max_pain` is the snapshot's price). -/
def neutralPressureSignal (price : ℚ) : PressureSignal :=
  ⟨none, 0, "neutral", [], price, 1, 0⟩

/-- The `FuelSignal` dataclass (`signals/fuel.py`). -/
structure FuelSignal where
  low_float : Bool
  high_short_interest : Bool
  high_borrow_cost : Bool
  volume_surge : Bool
  relative_volume : ℚ
  short_squeeze_score : ℚ
  fuel_factors : List String
  score : ℚ
deriving DecidableEq

/-- The neutral `FuelSignal` built in the `except` branch of
`FuelEngine.analyze`. -/
def neutralFuelSignal : FuelSignal :=
  ⟨false, false, false, false, 1, 0, [], 0⟩

/-- The `try`/`except` boundary of `IgnitionEngine.analyze`: the body's
outcome (a signal, or the exception it raised) is `inner`; the handler
replaces any error by the neutral signal, so the function is total — no
exception escapes. -/
def ignitionAnalyzeBoundary (inner : Except String IgnitionSignal) :
    IgnitionSignal :=
  match inner with
  | .ok s => s
  | .error _ => neutralIgnitionSignal

/-- The `try`/`except` boundary of `PressureEngine.analyze`. -/
def pressureAnalyzeBoundary (price : ℚ)
    (inner : Except String PressureSignal) : PressureSignal :=
  match inner with
  | .ok s => s
  | .error _ => neutralPressureSignal price

/-- The `try`/`except` boundary of `FuelEngine.analyze`. -/
def fuelAnalyzeBoundary (inner : Except String FuelSignal) : FuelSignal :=
  match inner with
  | .ok s => s
  | .error _ => neutralFuelSignal

/-! ## Theorems -/

/-- Claim C1 (counterexample).  At the scenario inputs (price 150, target
strike 155, probability 0.62, squeeze score 75) the expected return computed
by `_calculate_expected_return` is 341/12000 ≈ 0.0284, which is not
approximately 0.0431 (it differs from it by more than 0.005, indeed by about
0.0147). -/
theorem expectedReturn_scen_not_0431 :
    (calculateExpectedReturn 150 152 (297/2) (some 155) (62/100) 1 75).1 = 341/12000 ∧
    ¬(|(341/12000 : ℚ) - 431/10000| < 1/200) := by
  constructor
  · norm_num [calculateExpectedReturn, estimatePriceMove]
  · rw [abs_sub_comm, abs_of_pos (by norm_num)]
    norm_num

/-- Claim C1 (amended).  At the scenario inputs, the expected return computed
by `_calculate_expected_return` equals ((155−150)/150) × 0.62 × (1+75/200)
exactly; this value is 341/12000 ≈ 0.0284 (the spec's numeric evaluation
0.0431 is a slip). -/
theorem expectedReturn_scen_formula :
    (calculateExpectedReturn 150 152 (297/2) (some 155) (62/100) 1 75).1 =
      ((155 - 150) / 150) * (62/100) * (1 + 75/200) := by
  norm_num [calculateExpectedReturn, estimatePriceMove]

/-- Claim C3 (counterexample).  `PressureEngine.analyze` puts 0.0 in
`probability_reach` when no target wall exists, and
`_calculate_probability_reach` returns 1.0 when the target strike equals the
current price; both values lie outside [0.01, 0.99]. -/
theorem probabilityReach_out_of_bounds :
    analyzeProbabilityReach 150 none 0 = 0 ∧ ¬((1:ℚ)/100 ≤ 0) ∧
    analyzeProbabilityReach 150 (some 150) 0 = 1 ∧ ¬((1:ℚ) ≤ 99/100) := by
  refine ⟨rfl, by norm_num, ?_, by norm_num⟩
  simp [analyzeProbabilityReach, calculateProbabilityReach]

/-- Claim C3 (amended).  For every market snapshot and options input, the
`probability_reach` field produced by `PressureEngine.analyze` lies in
{0} ∪ [0.01, 0.99] ∪ {1}: it is 0 when no target wall was selected, 1 when
the selected strike equals the current price, and otherwise clamped into
[0.01, 0.99]. -/
theorem probabilityReach_range (price : ℚ) (targetWall : Option ℚ)
    (rawProbability : ℚ) :
    analyzeProbabilityReach price targetWall rawProbability = 0 ∨
    analyzeProbabilityReach price targetWall rawProbability = 1 ∨
    (1/100 ≤ analyzeProbabilityReach price targetWall rawProbability ∧
      analyzeProbabilityReach price targetWall rawProbability ≤ 99/100) := by
  rcases targetWall with _ | strike
  · exact Or.inl rfl
  · simp only [analyzeProbabilityReach, calculateProbabilityReach]
    by_cases h : strike = price
    · rw [if_pos h]
      exact Or.inr (Or.inl rfl)
    · rw [if_neg h]
      refine Or.inr (Or.inr ⟨le_max_left _ _, max_le (by norm_num) ?_⟩)
      exact le_trans (min_le_left _ _) (by norm_num)

/-- Claim C7 (code evaluated at the failing input).  With a cache entry
stored at time 0 and a call exactly one day (86400 s) later, the true age
86400 is not below the 300 s TTL, yet `get_expected_return` returns the
stale cached value 0.05 — not the freshly computed 0.03 — because Python's
`timedelta.seconds` reduces the age modulo one day to 0. -/
theorem getExpectedReturn_stale_after_one_day :
    getExpectedReturn [(cacheKey ("1h"), 0, 5/100)] 86400 ("1h")
        (some (.ok (3/100))) = (5/100, [(cacheKey ("1h"), 0, 5/100)]) ∧
    ¬((86400 - 0 : ℕ) < 300) ∧ (5/100 : ℚ) ≠ 3/100 := by
  refine ⟨?_, by norm_num, by norm_num⟩
  rfl

/-- Claim C8.  Each engine's `analyze` catches any error from its body and
returns the neutral signal: all boolean trigger flags false (the pressure
signal has no boolean flags; its neutral record is included for
completeness), score 0.  The boundary functions are total, so no exception
propagates to the caller. -/
theorem engines_error_path_neutral (e : String) (price : ℚ) :
    ignitionAnalyzeBoundary (.error e) = neutralIgnitionSignal ∧
    neutralIgnitionSignal.vwap_momentum = false ∧
    neutralIgnitionSignal.expansion_energy = false ∧
    neutralIgnitionSignal.entry_timing = false ∧
    neutralIgnitionSignal.score = 0 ∧
    pressureAnalyzeBoundary price (.error e) = neutralPressureSignal price ∧
    (neutralPressureSignal price).target_strike = none ∧
    (neutralPressureSignal price).probability_reach = 0 ∧
    (neutralPressureSignal price).score = 0 ∧
    fuelAnalyzeBoundary (.error e) = neutralFuelSignal ∧
    neutralFuelSignal.low_float = false ∧
    neutralFuelSignal.high_short_interest = false ∧
    neutralFuelSignal.high_borrow_cost = false ∧
    neutralFuelSignal.volume_surge = false ∧
    neutralFuelSignal.score = 0 := by
  exact ⟨rfl, rfl, rfl, rfl, rfl, rfl, rfl, rfl, rfl, rfl, rfl, rfl, rfl, rfl, rfl⟩

/-- Claim C9.  On a cache miss, when the fetch returns no data or any
exception occurs during fetch or computation, `get_expected_return` returns
the conservative default 0.02 and leaves the cache unchanged. -/
theorem getExpectedReturn_failure_default (cache : List (String × ℕ × ℚ))
    (now : ℕ) (timeframe : String) (outcome : Option (Except Unit ℚ))
    (hmiss : cacheHit cache now timeframe = none)
    (hfail : outcome = none ∨ outcome = some (.error ())) :
    getExpectedReturn cache now timeframe outcome = (1/50, cache) := by
  rcases hfail with h | h <;> subst h <;>
    simp only [getExpectedReturn, hmiss]

/-- Witness for claim C9: an empty cache misses, and a failed fetch yields
(0.02, unchanged cache). -/
theorem getExpectedReturn_failure_default_w :
    getExpectedReturn [] 0 ("1h") none = (1/50, []) :=
  getExpectedReturn_failure_default [] 0 ("1h") none rfl (Or.inl rfl)

/-- Claim C10.  For `current_price > 0` and a target strictly above it,
`_calculate_risk_reward` returns exactly `expected_return / 0.05`
(= 20 × expected_return): the computed potential loss is 1/20 > 0, so the
sentinel branch returning 10.0 is unreachable. -/
theorem riskReward_eq_return_div_stop (p t er : ℚ) (hp : 0 < p) (ht : p < t) :
    calculateRiskReward p (some t) er = er / (5/100) ∧
    er / (5/100) = er * 20 ∧
    ¬((p - p * (95/100)) / p ≤ 0) := by
  have hp0 : p ≠ 0 := ne_of_gt hp
  have hloss : (p - p * (95/100)) / p = 1/20 := by
    rw [div_eq_iff hp0]; ring
  have hcond : ¬(t = 0 ∨ t ≤ p) := by
    push_neg
    exact ⟨ne_of_gt (lt_trans hp ht), ht⟩
  refine ⟨?_, ?_, ?_⟩
  · simp only [calculateRiskReward, if_neg hcond, hloss]
    norm_num
  · rw [div_eq_mul_inv]; norm_num
  · rw [hloss]; norm_num

/-- Witness for claim C10 at price 100, target 110, expected return 0.1. -/
theorem riskReward_eq_return_div_stop_w :
    calculateRiskReward 100 (some 110) (1/10) = (1/10) / (5/100) ∧
    (1/10 : ℚ) / (5/100) = (1/10) * 20 ∧
    ¬(((100:ℚ) - 100 * (95/100)) / 100 ≤ 0) :=
  riskReward_eq_return_div_stop 100 110 (1/10) (by norm_num) (by norm_num)

/-- The ignition score lies in [0, 100] for all inputs. -/
theorem ignitionAnalyzeScore_bounds (vwapSlope bandExpansion d : ℚ) :
    0 ≤ ignitionAnalyzeScore vwapSlope bandExpansion d ∧
    ignitionAnalyzeScore vwapSlope bandExpansion d ≤ 100 := by
  simp only [ignitionAnalyzeScore, MAX_DISTANCE_FROM_HOD_LOD]
  constructor
  · have h1 : (0:ℚ) ≤ if vwapSlope > 1/1000 then min 40 (|vwapSlope| * 10000) else 0 := by
      split_ifs with h
      · exact le_min (by norm_num) (by positivity)
      · exact le_refl 0
    have h2 : (0:ℚ) ≤ if bandExpansion > 3/2 then min 35 ((bandExpansion - 1) * 35) else 0 := by
      split_ifs with h
      · exact le_min (by norm_num) (by nlinarith)
      · exact le_refl 0
    have h3 : (0:ℚ) ≤ if d < 1/5 then ((1/5 - d) / (1/5)) * 25 else 0 := by
      split_ifs with h
      · have : (0:ℚ) ≤ (1/5 - d) / (1/5) := div_nonneg (by linarith) (by norm_num)
        nlinarith
      · exact le_refl 0
    exact le_min (by norm_num) (add_nonneg (add_nonneg h1 h2) h3)
  · exact min_le_left _ _

/-- The pressure score lies in [0, 100] whenever the probability fed to it is
nonnegative and every wall gamma magnitude is nonnegative. -/
theorem calculatePressureScore_bounds (probability : ℚ) (dealerFlow : String)
    (pcr : ℚ) (wallGammas : List ℚ) (hprob : 0 ≤ probability)
    (hg : ∀ g ∈ wallGammas, 0 ≤ g) :
    0 ≤ calculatePressureScore probability dealerFlow pcr wallGammas ∧
    calculatePressureScore probability dealerFlow pcr wallGammas ≤ 100 := by
  have h1 : (0:ℚ) ≤ probability * 40 := by positivity
  have h2 : (0:ℚ) ≤ if dealerFlow = "bullish" then (30:ℚ)
      else if dealerFlow = "bearish" then 20 else 0 := by
    split_ifs <;> norm_num
  have h3 : (0:ℚ) ≤ if pcr < 7/10 then (20:ℚ) else if pcr < 1 then 15
      else if pcr > 3/2 then 10 else 0 := by
    split_ifs <;> norm_num
  rcases wallGammas with _ | ⟨g, rest⟩
  · simp only [calculatePressureScore]
    refine ⟨le_min (by norm_num) ?_, min_le_left _ _⟩
    have := add_nonneg (add_nonneg (add_nonneg h1 h2) h3) (le_refl (0:ℚ))
    linarith
  · simp only [calculatePressureScore]
    refine ⟨le_min (by norm_num) ?_, min_le_left _ _⟩
    have h4 : (0:ℚ) ≤ min 10 (g / 5000) :=
      le_min (by norm_num)
        (div_nonneg (hg g (List.mem_cons_self g rest)) (by norm_num))
    exact add_nonneg (add_nonneg (add_nonneg h1 h2) h3) h4

/-- The probability field produced by `PressureEngine.analyze` lies in
[0, 1]. -/
theorem analyzeProbabilityReach_bounds (price : ℚ) (targetWall : Option ℚ)
    (rawProbability : ℚ) :
    0 ≤ analyzeProbabilityReach price targetWall rawProbability ∧
    analyzeProbabilityReach price targetWall rawProbability ≤ 1 := by
  rcases probabilityReach_range price targetWall rawProbability with h | h | h
  · rw [h]; norm_num
  · rw [h]; norm_num
  · constructor
    · linarith [h.1]
    · linarith [h.2]

/-- The squeeze score lies in [0, 100] for all inputs. -/
theorem calculateSqueezeScore_bounds (floatShares shortPercent borrowFee
    insiderOwnership relativeVolume : ℚ) :
    0 ≤ calculateSqueezeScore floatShares shortPercent borrowFee
      insiderOwnership relativeVolume ∧
    calculateSqueezeScore floatShares shortPercent borrowFee
      insiderOwnership relativeVolume ≤ 100 := by
  simp only [calculateSqueezeScore]
  refine ⟨le_min (by norm_num) ?_, min_le_left _ _⟩
  have h1 : (0:ℚ) ≤ if floatShares < 5000000 then (30:ℚ)
      else if floatShares < 10000000 then 25
      else if floatShares < 20000000 then 15 else 0 := by
    split_ifs <;> norm_num
  have h2 : (0:ℚ) ≤ if shortPercent > 30 then (25:ℚ)
      else if shortPercent > 20 then 20
      else if shortPercent > 15 then 10 else 0 := by
    split_ifs <;> norm_num
  have h3 : (0:ℚ) ≤ if borrowFee > 100 then (20:ℚ)
      else if borrowFee > 50 then 15
      else if borrowFee > 25 then 5 else 0 := by
    split_ifs <;> norm_num
  have h4 : (0:ℚ) ≤ if relativeVolume > 5 then (15:ℚ)
      else if relativeVolume > 3 then 10
      else if relativeVolume > 2 then 5 else 0 := by
    split_ifs <;> norm_num
  have h5 : (0:ℚ) ≤ if insiderOwnership > 40 then (10:ℚ)
      else if insiderOwnership > 30 then 5 else 0 := by
    split_ifs <;> norm_num
  exact add_nonneg (add_nonneg (add_nonneg (add_nonneg h1 h2) h3) h4) h5

/-- The fuel score lies in [0, 100] whenever the volume-surge flag implies
`relative_volume > 2` (as `analyze` guarantees) and the squeeze score is
nonnegative. -/
theorem calculateFuelScore_bounds (lowFloat highShortInterest highBorrowCost
    volumeSurge : Bool) (relativeVolume squeezeScore : ℚ)
    (hsurge : volumeSurge = true → 2 < relativeVolume)
    (hsq : 0 ≤ squeezeScore) :
    0 ≤ calculateFuelScore lowFloat highShortInterest highBorrowCost
      volumeSurge relativeVolume squeezeScore ∧
    calculateFuelScore lowFloat highShortInterest highBorrowCost
      volumeSurge relativeVolume squeezeScore ≤ 100 := by
  simp only [calculateFuelScore]
  refine ⟨le_min (by norm_num) ?_, min_le_left _ _⟩
  have h1 : (0:ℚ) ≤ if lowFloat then (25:ℚ) else 0 := by split_ifs <;> norm_num
  have h2 : (0:ℚ) ≤ if highShortInterest then (25:ℚ) else 0 := by
    split_ifs <;> norm_num
  have h3 : (0:ℚ) ≤ if highBorrowCost then (20:ℚ) else 0 := by
    split_ifs <;> norm_num
  have h4 : (0:ℚ) ≤ if volumeSurge then min 20 ((relativeVolume - 2) * 5) else 0 := by
    split_ifs with h
    · exact le_min (by norm_num) (by nlinarith [hsurge h])
    · exact le_refl 0
  have h5 : (0:ℚ) ≤ min 10 (squeezeScore / 10) :=
    le_min (by norm_num) (div_nonneg hsq (by norm_num))
  exact add_nonneg (add_nonneg (add_nonneg (add_nonneg h1 h2) h3) h4) h5

/-- The composed fuel score of `FuelEngine.analyze` lies in [0, 100] for all
inputs. -/
theorem fuelAnalyzeScore_bounds (volume avgVolume floatShares shortPercent
    borrowFee insiderOwnership : ℚ) :
    0 ≤ fuelAnalyzeScore volume avgVolume floatShares shortPercent borrowFee
      insiderOwnership ∧
    fuelAnalyzeScore volume avgVolume floatShares shortPercent borrowFee
      insiderOwnership ≤ 100 := by
  simp only [fuelAnalyzeScore, MIN_VOLUME_MULTIPLE]
  apply calculateFuelScore_bounds
  · intro h
    exact of_decide_eq_true h
  · exact (calculateSqueezeScore_bounds floatShares shortPercent borrowFee
      insiderOwnership _).1

/-- The combination bonus is nonnegative for all inputs. -/
theorem calculateCombinationBonus_nonneg (i p f : ℚ) (vwapMomentum : Bool)
    (probabilityReach : ℚ) (lowFloat highShortInterest : Bool)
    (dealerFlow : String) (expansionEnergy volumeSurge : Bool) :
    0 ≤ calculateCombinationBonus i p f vwapMomentum probabilityReach lowFloat
      highShortInterest dealerFlow expansionEnergy volumeSurge := by
  simp only [calculateCombinationBonus]
  have h1 : (0:ℚ) ≤ if ((if i > 70 then 1 else 0) + (if p > 70 then 1 else 0) +
      (if f > 70 then 1 else 0) : ℕ) ≥ 3 then (15:ℚ)
      else if ((if i > 70 then 1 else 0) + (if p > 70 then 1 else 0) +
      (if f > 70 then 1 else 0) : ℕ) ≥ 2 then 8 else 0 := by
    split_ifs <;> norm_num
  have h2 : (0:ℚ) ≤ if vwapMomentum = true ∧ probabilityReach > 7/10 then (5:ℚ)
      else 0 := by split_ifs <;> norm_num
  have h3 : (0:ℚ) ≤ if lowFloat = true ∧ highShortInterest = true ∧
      dealerFlow = "bullish" then (8:ℚ) else 0 := by split_ifs <;> norm_num
  have h4 : (0:ℚ) ≤ if expansionEnergy = true ∧ volumeSurge = true then (5:ℚ)
      else 0 := by split_ifs <;> norm_num
  exact add_nonneg (add_nonneg (add_nonneg h1 h2) h3) h4

/-- The weighted composite score lies in [0, 100] whenever the three
sub-scores lie in [0, 100] and the bonus is nonnegative. -/
theorem calculateWeightedScore_bounds (i p f bonus : ℚ) (hi : 0 ≤ i)
    (hp : 0 ≤ p) (hf : 0 ≤ f) (hb : 0 ≤ bonus) :
    0 ≤ calculateWeightedScore i p f bonus ∧
    calculateWeightedScore i p f bonus ≤ 100 := by
  simp only [calculateWeightedScore, VWAP_MOMENTUM_WEIGHT,
    OPTIONS_PRESSURE_WEIGHT, VOLUME_WEIGHT]
  refine ⟨le_min (by norm_num) ?_, min_le_left _ _⟩
  nlinarith

/-- Claim C4.  For every input, the scores produced by the three engines'
`analyze` methods (each composed from its raw numeric inputs exactly as in
the source) lie in [0, 100], and the weighted composite score produced by
`CompositeScorer._calculate_weighted_score` from those three sub-scores and
the combination bonus also lies in [0, 100]. -/
theorem all_scores_in_0_100 (vwapSlope bandExpansion distance price : ℚ)
    (targetWall : Option ℚ) (rawProbability : ℚ) (dealerFlow : String)
    (pcr : ℚ) (netGammas : List ℚ)
    (volume avgVolume floatShares shortPercent borrowFee insiderOwnership : ℚ)
    (vwapMomentum lowFloat highShortInterest expansionEnergy volumeSurge : Bool) :
    (0 ≤ ignitionAnalyzeScore vwapSlope bandExpansion distance ∧
      ignitionAnalyzeScore vwapSlope bandExpansion distance ≤ 100) ∧
    (0 ≤ calculatePressureScore
        (analyzeProbabilityReach price targetWall rawProbability) dealerFlow
        pcr (netGammas.map (fun g => |g|)) ∧
      calculatePressureScore
        (analyzeProbabilityReach price targetWall rawProbability) dealerFlow
        pcr (netGammas.map (fun g => |g|)) ≤ 100) ∧
    (0 ≤ fuelAnalyzeScore volume avgVolume floatShares shortPercent borrowFee
        insiderOwnership ∧
      fuelAnalyzeScore volume avgVolume floatShares shortPercent borrowFee
        insiderOwnership ≤ 100) ∧
    (0 ≤ calculateWeightedScore
        (ignitionAnalyzeScore vwapSlope bandExpansion distance)
        (calculatePressureScore
          (analyzeProbabilityReach price targetWall rawProbability) dealerFlow
          pcr (netGammas.map (fun g => |g|)))
        (fuelAnalyzeScore volume avgVolume floatShares shortPercent borrowFee
          insiderOwnership)
        (calculateCombinationBonus
          (ignitionAnalyzeScore vwapSlope bandExpansion distance)
          (calculatePressureScore
            (analyzeProbabilityReach price targetWall rawProbability)
            dealerFlow pcr (netGammas.map (fun g => |g|)))
          (fuelAnalyzeScore volume avgVolume floatShares shortPercent borrowFee
            insiderOwnership)
          vwapMomentum (analyzeProbabilityReach price targetWall rawProbability)
          lowFloat highShortInterest dealerFlow expansionEnergy volumeSurge) ∧
      calculateWeightedScore
        (ignitionAnalyzeScore vwapSlope bandExpansion distance)
        (calculatePressureScore
          (analyzeProbabilityReach price targetWall rawProbability) dealerFlow
          pcr (netGammas.map (fun g => |g|)))
        (fuelAnalyzeScore volume avgVolume floatShares shortPercent borrowFee
          insiderOwnership)
        (calculateCombinationBonus
          (ignitionAnalyzeScore vwapSlope bandExpansion distance)
          (calculatePressureScore
            (analyzeProbabilityReach price targetWall rawProbability)
            dealerFlow pcr (netGammas.map (fun g => |g|)))
          (fuelAnalyzeScore volume avgVolume floatShares shortPercent borrowFee
            insiderOwnership)
          vwapMomentum (analyzeProbabilityReach price targetWall rawProbability)
          lowFloat highShortInterest dealerFlow expansionEnergy volumeSurge) ≤ 100) := by
  have hi := ignitionAnalyzeScore_bounds vwapSlope bandExpansion distance
  have hprob := analyzeProbabilityReach_bounds price targetWall rawProbability
  have hgam : ∀ g ∈ netGammas.map (fun g => |g|), 0 ≤ g := by
    intro g hg
    rcases List.mem_map.mp hg with ⟨a, _, rfl⟩
    exact abs_nonneg a
  have hp := calculatePressureScore_bounds
    (analyzeProbabilityReach price targetWall rawProbability) dealerFlow pcr
    (netGammas.map (fun g => |g|)) hprob.1 hgam
  have hf := fuelAnalyzeScore_bounds volume avgVolume floatShares shortPercent
    borrowFee insiderOwnership
  have hb := calculateCombinationBonus_nonneg
    (ignitionAnalyzeScore vwapSlope bandExpansion distance)
    (calculatePressureScore
      (analyzeProbabilityReach price targetWall rawProbability) dealerFlow pcr
      (netGammas.map (fun g => |g|)))
    (fuelAnalyzeScore volume avgVolume floatShares shortPercent borrowFee
      insiderOwnership)
    vwapMomentum (analyzeProbabilityReach price targetWall rawProbability)
    lowFloat highShortInterest dealerFlow expansionEnergy volumeSurge
  exact ⟨hi, hp, hf, calculateWeightedScore_bounds _ _ _ _ hi.1 hp.1 hf.1 hb⟩

/-- Inserting an element is a permutation of prepending it. -/
theorem insertDesc_perm (x : CompositeScore) (l : List CompositeScore) :
    List.Perm (insertDesc x l) (x :: l) := by
  induction l with
  | nil => exact List.Perm.refl _
  | cons y ys ih =>
    simp only [insertDesc]
    split_ifs with h
    · exact List.Perm.refl _
    · exact List.Perm.trans (List.Perm.cons y ih) (List.Perm.swap x y ys)

/-- The sort is a permutation of its input. -/
theorem sortDesc_perm (l : List CompositeScore) : List.Perm (sortDesc l) l := by
  induction l with
  | nil => exact List.Perm.refl _
  | cons x xs ih =>
    exact List.Perm.trans (insertDesc_perm x (sortDesc xs)) (List.Perm.cons x ih)

/-- The sort preserves length. -/
theorem sortDesc_length (l : List CompositeScore) :
    (sortDesc l).length = l.length :=
  (sortDesc_perm l).length_eq

/-- Membership through one insertion step. -/
theorem mem_insertDesc {b x : CompositeScore} {l : List CompositeScore} :
    b ∈ insertDesc x l ↔ b = x ∨ b ∈ l := by
  rw [(insertDesc_perm x l).mem_iff, List.mem_cons]

/-- Insertion preserves descending sortedness by `rankingKey`. -/
theorem insertDesc_pairwise (x : CompositeScore) (l : List CompositeScore)
    (h : List.Pairwise (fun a b => rankingKey b ≤ rankingKey a) l) :
    List.Pairwise (fun a b => rankingKey b ≤ rankingKey a) (insertDesc x l) := by
  induction l with
  | nil => simp [insertDesc]
  | cons y ys ih =>
    rw [List.pairwise_cons] at h
    simp only [insertDesc]
    split_ifs with hle
    · rw [List.pairwise_cons]
      refine ⟨?_, List.pairwise_cons.mpr h⟩
      intro b hb
      rcases List.mem_cons.mp hb with rfl | hb
      · exact hle
      · exact le_trans (h.1 b hb) hle
    · rw [List.pairwise_cons]
      refine ⟨?_, ih h.2⟩
      intro b hb
      rcases mem_insertDesc.mp hb with rfl | hb
      · exact le_of_lt (lt_of_not_le hle)
      · exact h.1 b hb

/-- The sort output is descending in `rankingKey`. -/
theorem sortDesc_sorted (l : List CompositeScore) :
    List.Pairwise (fun a b => rankingKey b ≤ rankingKey a) (sortDesc l) := by
  induction l with
  | nil => simp [sortDesc]
  | cons x xs ih => exact insertDesc_pairwise x (sortDesc xs) ih

/-- Restricting one insertion step to the elements of a fixed key value `c`
either prepends `x` (when `rankingKey x = c`) or changes nothing: every
element `x` jumps over has a strictly larger key. -/
theorem filter_insertDesc (x : CompositeScore) (l : List CompositeScore) (c : ℚ) :
    (insertDesc x l).filter (fun y => decide (rankingKey y = c)) =
      if rankingKey x = c
      then x :: l.filter (fun y => decide (rankingKey y = c))
      else l.filter (fun y => decide (rankingKey y = c)) := by
  induction l with
  | nil =>
    by_cases hc : rankingKey x = c <;> simp [insertDesc, hc]
  | cons y ys ih =>
    simp only [insertDesc]
    by_cases hle : rankingKey y ≤ rankingKey x
    · rw [if_pos hle]
      by_cases hc : rankingKey x = c <;> simp [List.filter_cons, hc]
    · rw [if_neg hle]
      by_cases hc : rankingKey x = c
      · have hyc : ¬(rankingKey y = c) := fun hy =>
          hle (le_of_eq (hy.trans hc.symm))
        simp [List.filter_cons, hyc, hc, ih]
      · simp [List.filter_cons, hc, ih]

/-- Stability of the sort: for every key value `c`, the sorted list restricted
to the elements whose `rankingKey` is `c` equals the input list restricted to
them — tied elements keep their relative input order. -/
theorem sortDesc_stable (l : List CompositeScore) (c : ℚ) :
    (sortDesc l).filter (fun y => decide (rankingKey y = c)) =
      l.filter (fun y => decide (rankingKey y = c)) := by
  induction l with
  | nil => rfl
  | cons x xs ih =>
    simp only [sortDesc]
    rw [filter_insertDesc]
    by_cases hc : rankingKey x = c <;> simp [List.filter_cons, hc, ih]

/-- A pointwise-stronger filter predicate keeps at most as many elements. -/
theorem length_filter_mono {α : Type} (p q : α → Bool) (l : List α)
    (h : ∀ x, p x = true → q x = true) :
    (l.filter p).length ≤ (l.filter q).length := by
  induction l with
  | nil => exact le_refl 0
  | cons x xs ih =>
    rw [List.filter_cons, List.filter_cons]
    by_cases hp : p x = true
    · rw [if_pos hp, if_pos (h x hp)]
      exact Nat.succ_le_succ ih
    · rw [if_neg hp]
      split_ifs with hq
      · exact le_trans ih (Nat.le_succ _)
      · exact ih

/-- Claim C5.  `filter_and_rank` (i) keeps exactly the scores that pass the
benchmark gate and meet the score and probability thresholds, (ii) sorts the
retained scores in descending order of `total_score*0.7 +
probability_reach*30 + risk_reward_ratio*5` with a stable sort (the retained
list is permuted, descending, and ties keep input order), (iii) truncates to
`MAX_SYMBOLS_PER_SCAN = 3`, and (iv) is deterministic. -/
theorem filter_and_rank_spec (scores : List CompositeScore) :
    (∀ x, x ∈ scores.filter
        (passesFilters MIN_SCORE_THRESHOLD MIN_PROBABILITY_THRESHOLD) ↔
      x ∈ scores ∧ x.btc_benchmark_passed = true ∧
      MIN_SCORE_THRESHOLD ≤ x.total_score ∧
      MIN_PROBABILITY_THRESHOLD ≤ x.probability_reach) ∧
    List.Perm
      (sortDesc (scores.filter
        (passesFilters MIN_SCORE_THRESHOLD MIN_PROBABILITY_THRESHOLD)))
      (scores.filter
        (passesFilters MIN_SCORE_THRESHOLD MIN_PROBABILITY_THRESHOLD)) ∧
    List.Pairwise (fun a b => rankingKey b ≤ rankingKey a)
      (sortDesc (scores.filter
        (passesFilters MIN_SCORE_THRESHOLD MIN_PROBABILITY_THRESHOLD))) ∧
    (∀ c, (sortDesc (scores.filter
        (passesFilters MIN_SCORE_THRESHOLD MIN_PROBABILITY_THRESHOLD))).filter
          (fun y => decide (rankingKey y = c)) =
      (scores.filter
        (passesFilters MIN_SCORE_THRESHOLD MIN_PROBABILITY_THRESHOLD)).filter
          (fun y => decide (rankingKey y = c))) ∧
    filter_and_rank scores =
      (sortDesc (scores.filter
        (passesFilters MIN_SCORE_THRESHOLD MIN_PROBABILITY_THRESHOLD))).take
        MAX_SYMBOLS_PER_SCAN ∧
    (filter_and_rank scores).length ≤ MAX_SYMBOLS_PER_SCAN ∧
    filter_and_rank scores = filter_and_rank scores := by
  refine ⟨?_, sortDesc_perm _, sortDesc_sorted _, fun c => sortDesc_stable _ c,
    rfl, ?_, rfl⟩
  · intro x
    simp only [List.mem_filter, passesFilters, Bool.and_eq_true,
      Bool.not_eq_true', decide_eq_false_iff_not, not_lt, and_assoc]
  · rw [filter_and_rank, filterAndRankWith, List.length_take]
    exact min_le_left _ _

/-- Claim C6.  Raising the minimum-score threshold never increases the
candidate count returned by `filter_and_rank` on the same input (with the
probability threshold and result cap held fixed). -/
theorem filter_and_rank_threshold_mono (t1 t2 minProb : ℚ) (maxN : ℕ)
    (scores : List CompositeScore) (h : t1 ≤ t2) :
    (filterAndRankWith t2 minProb maxN scores).length ≤
      (filterAndRankWith t1 minProb maxN scores).length := by
  rw [filterAndRankWith, filterAndRankWith, List.length_take, List.length_take,
    sortDesc_length, sortDesc_length]
  refine min_le_min (le_refl maxN) ?_
  apply length_filter_mono
  intro x hx
  simp only [passesFilters, Bool.and_eq_true, Bool.not_eq_true',
    decide_eq_false_iff_not, not_lt] at hx ⊢
  exact ⟨⟨hx.1.1, le_trans h hx.1.2⟩, hx.2⟩

/-- Witness for claim C6 at thresholds 0 ≤ 80 on a singleton input list. -/
theorem filter_and_rank_threshold_mono_w :
    (filterAndRankWith 80 (65/100) 3
        [⟨("AAA"), 75, 0, 0, 0, true, 0, 0, 7/10, none, 1⟩]).length ≤
      (filterAndRankWith 0 (65/100) 3
        [⟨("AAA"), 75, 0, 0, 0, true, 0, 0, 7/10, none, 1⟩]).length :=
  filter_and_rank_threshold_mono 0 80 (65/100) 3
    [⟨("AAA"), 75, 0, 0, 0, true, 0, 0, 7/10, none, 1⟩] (by norm_num)

/-- Evaluation of the benchmark return computation at the spec's scenario:
momentum 0.002, volatility 0.01, periods 4, ample history. -/
theorem benchCalc_scen_result :
    benchCalculateExpectedReturn (1/500) (1/100) 4 100 = 1/100 := by
  have hsqrt : Real.sqrt ((4:ℕ):ℝ) = 2 := by
    rw [show ((4:ℕ):ℝ) = (2:ℝ)^2 by norm_num]
    exact Real.sqrt_sq (by norm_num)
  have ha1 : |(1/500 : ℝ)| = 1/500 := abs_of_pos (by norm_num)
  have ha2 : |(1/500 : ℝ) * ((4:ℕ):ℝ)| = 1/125 := by
    rw [abs_of_pos (by positivity)]
    push_cast
    norm_num
  have hcond : ¬(|(1/500 : ℝ)| > (1/100) * (1/2)) := by
    rw [ha1]; norm_num
  have hmin : min |(1/500 : ℝ) * ((4:ℕ):ℝ)|
      ((1/100) * Real.sqrt ((4:ℕ):ℝ)) = 1/125 := by
    rw [ha2, hsqrt, show (1/100 : ℝ) * 2 = 1/50 by norm_num]
    exact min_eq_left (by norm_num)
  simp only [benchCalculateExpectedReturn, maxExpectationForPeriods]
  rw [if_neg (by norm_num : ¬((100:ℕ) < 4 * 2)), if_neg hcond, hmin,
    max_eq_right (by norm_num : (1/125 : ℝ) ≤ 1/100)]
  norm_num

/-- Claim C2 (counterexample).  At momentum 0.002, periods 4, volatility 0.01
with sufficient history, `BTCBenchmark._calculate_expected_return` does not
return 0.02: the conservative `min` keeps |momentum × periods| = 0.008 (the
weak-momentum case does not select the volatility expectation), and the 1%
floor then yields 0.01. -/
theorem benchReturn_scen_not_002 :
    benchCalculateExpectedReturn (1/500) (1/100) 4 100 ≠ 1/50 := by
  rw [benchCalc_scen_result]
  norm_num

/-- Claim C2 (amended).  At momentum 0.002, periods 4, volatility 0.01 the
code returns 0.01: min(|0.002×4|, 0.01×√4) = min(0.008, 0.02) = 0.008; since
|momentum| = 0.002 is NOT above volatility×0.5 = 0.005 the strong-momentum
override does not fire and 0.008 is kept; the minimum-expectation floor
max(0.008, 0.01) raises it to 0.01, and the 0.12 cap leaves it unchanged. -/
theorem benchReturn_scen_value :
    benchCalculateExpectedReturn (1/500) (1/100) 4 100 = 1/100 ∧
    min |(1/500 : ℝ) * ((4:ℕ):ℝ)| ((1/100) * Real.sqrt ((4:ℕ):ℝ)) = 1/125 ∧
    ¬(|(1/500 : ℝ)| > (1/100) * (1/2)) ∧
    max (1/125 : ℝ) (1/100) = 1/100 := by
  have hsqrt : Real.sqrt ((4:ℕ):ℝ) = 2 := by
    rw [show ((4:ℕ):ℝ) = (2:ℝ)^2 by norm_num]
    exact Real.sqrt_sq (by norm_num)
  have ha2 : |(1/500 : ℝ) * ((4:ℕ):ℝ)| = 1/125 := by
    rw [abs_of_pos (by positivity)]
    push_cast
    norm_num
  refine ⟨benchCalc_scen_result, ?_, ?_, max_eq_right (by norm_num)⟩
  · rw [ha2, hsqrt, show (1/100 : ℝ) * 2 = 1/50 by norm_num]
    exact min_eq_left (by norm_num)
  · rw [abs_of_pos (by norm_num : (0:ℝ) < 1/500)]
    norm_num

end MarketScanner
